import Mathlib

/-!
Verification of the hybrid retrieval and answer-synthesis engine of the
repository (src/rag/retriever.py and src/rag/api.py), against its
natural-language specification.

Strings of the Python code are modelled as lists of characters, Python
floats as rationals, Python dicts keyed by int as association lists in
insertion order, and the stateful FastAPI handler as explicit state
passing.  Each definition cites the source lines it embeds.
-/

/-- Python strings, modelled as lists of characters. -/
abbrev PyStr := List Char

/-- Model of Python str.isspace for one character / the regex class \s
(the six ASCII whitespace characters; the code's answers and the
synthesized citations only involve these). -/
def pyIsSpace (c : Char) : Bool :=
  c == ' ' || c == '\t' || c == '\n' || c == '\r' || c == '\x0b' || c == '\x0c'

/-- The regex class \d restricted to ASCII digits. -/
def isDigitCh (c : Char) : Bool :=
  '0' ≤ c && c ≤ '9'

/-- Model of Python str.lower, character-wise, as an explicit table for
the alphabet that occurs in the engine's strings (ASCII letters plus the
accented capital of "Página"); every other character is unchanged. -/
def pyLowerChar : Char → Char
  | 'A' => 'a' | 'B' => 'b' | 'C' => 'c' | 'D' => 'd' | 'E' => 'e'
  | 'F' => 'f' | 'G' => 'g' | 'H' => 'h' | 'I' => 'i' | 'J' => 'j'
  | 'K' => 'k' | 'L' => 'l' | 'M' => 'm' | 'N' => 'n' | 'O' => 'o'
  | 'P' => 'p' | 'Q' => 'q' | 'R' => 'r' | 'S' => 's' | 'T' => 't'
  | 'U' => 'u' | 'V' => 'v' | 'W' => 'w' | 'X' => 'x' | 'Y' => 'y'
  | 'Z' => 'z' | 'Á' => 'á'
  | c => c

/-- Python str.lower on a whole string. -/
def pyLower (s : PyStr) : PyStr := s.map pyLowerChar

/-- Python str.lstrip (default: remove leading whitespace). -/
def pyLstrip (s : PyStr) : PyStr := s.dropWhile pyIsSpace

/-- Python str.rstrip (default: remove trailing whitespace). -/
def pyRstrip (s : PyStr) : PyStr := (s.reverse.dropWhile pyIsSpace).reverse

/-- Python str.strip (default: remove whitespace at both ends). -/
def pyStrip (s : PyStr) : PyStr := pyRstrip (pyLstrip s)

/-- The decimal digit character of a value below ten (str(int) digit). -/
def digitChar : Nat → Char
  | 0 => '0' | 1 => '1' | 2 => '2' | 3 => '3' | 4 => '4'
  | 5 => '5' | 6 => '6' | 7 => '7' | 8 => '8' | _ => '9'

/-- Decimal digit rendering with explicit fuel (the fuel only bounds the
recursion; with fuel at least the digit count the result is exact). -/
def natDigitsF : Nat → Nat → PyStr
  | 0, n => [digitChar (n % 10)]
  | f + 1, n =>
    if n < 10 then [digitChar n]
    else natDigitsF f (n / 10) ++ [digitChar (n % 10)]

/-- Model of Python str(n) for a nonnegative int: its decimal digits
(n itself is always enough fuel). -/
def natDigits (n : Nat) : PyStr := natDigitsF n n

/-- Python "\n\n".join(parts) (retriever.py line 332 / 486). -/
def joinNN : List PyStr → PyStr
  | [] => []
  | [x] => x
  | x :: xs => x ++ ('\n' :: '\n' :: joinNN xs)

/-- Python content.split(". ") (retriever.py line 317): split on each
non-overlapping occurrence of a dot followed by a space, left to right. -/
def pySplitDotSpace : PyStr → List PyStr
  | [] => [[]]
  | '.' :: ' ' :: rest => [] :: pySplitDotSpace rest
  | c :: rest =>
    match pySplitDotSpace rest with
    | [] => [[c]]
    | h :: t => (c :: h) :: t

/-! ## The citation pattern scanner (retriever.py lines 277 to 290)

`_validate_citations` runs `re.search(pattern, answer.lower())` for the
five fixed patterns.  Each pattern is embedded as a matcher that decides
whether the pattern matches a prefix of the given suffix of the lowered
answer; `scanCitation` tries every suffix, which is exactly what
`re.search` does.  For these patterns (a literal, then `\s+` or `\s*`,
then `\d+`, for two of them followed by a closing bracket) greedy
munching is equivalent to full regex matching. -/

/-- Match a literal character sequence, returning the rest on success. -/
def matchLit : PyStr → PyStr → Option PyStr
  | [], l => some l
  | _ :: _, [] => none
  | c :: cs, x :: xs => if x = c then matchLit cs xs else none

/-- Is the first character a digit (the regex tail \d...)? -/
def headDigit : PyStr → Bool
  | d :: _ => isDigitCh d
  | [] => false

/-- The regex tail \s*\d+ (at least the first digit). -/
def wsDig (l : PyStr) : Bool := headDigit (l.dropWhile pyIsSpace)

/-- The regex tail \s+\d+ (at least one whitespace, then a digit). -/
def wsPlusDig : PyStr → Bool
  | c :: rest => pyIsSpace c && wsDig rest
  | [] => false

/-- The regex tail \d+ followed by a closing character. -/
def digRunClose (close : Char) : PyStr → Bool
  | d :: rest =>
    isDigitCh d &&
      (match rest.dropWhile isDigitCh with
       | x :: _ => x = close
       | [] => false)
  | [] => false

/-- The regex tail \s+\d+ followed by a closing character. -/
def wsPlusDigClose (close : Char) : PyStr → Bool
  | c :: rest => pyIsSpace c && digRunClose close (rest.dropWhile pyIsSpace)
  | [] => false

/-- Pattern 1 of the code, regex "página\s+\d+". -/
def matchP1 (l : PyStr) : Bool :=
  match matchLit ('p' :: 'á' :: 'g' :: 'i' :: 'n' :: 'a' :: []) l with
  | some r => wsPlusDig r
  | none => false

/-- Pattern 2 of the code, regex "pág\.\s*\d+". -/
def matchP2 (l : PyStr) : Bool :=
  match matchLit ('p' :: 'á' :: 'g' :: '.' :: []) l with
  | some r => wsDig r
  | none => false

/-- Pattern 3 of the code, regex "p\.\s*\d+". -/
def matchP3 (l : PyStr) : Bool :=
  match matchLit ('p' :: '.' :: []) l with
  | some r => wsDig r
  | none => false

/-- Pattern 4 of the code, regex "\[página\s+\d+\]". -/
def matchP4 (l : PyStr) : Bool :=
  match matchLit ('[' :: 'p' :: 'á' :: 'g' :: 'i' :: 'n' :: 'a' :: []) l with
  | some r => wsPlusDigClose ']' r
  | none => false

/-- Pattern 5 of the code, regex "\(página\s+\d+\)". -/
def matchP5 (l : PyStr) : Bool :=
  match matchLit ('(' :: 'p' :: 'á' :: 'g' :: 'i' :: 'n' :: 'a' :: []) l with
  | some r => wsPlusDigClose ')' r
  | none => false

/-- Does any of the five citation patterns match at this position? -/
def matchAnyCitation (l : PyStr) : Bool :=
  matchP1 l || matchP2 l || matchP3 l || matchP4 l || matchP5 l

/-- re.search: try the patterns at every suffix. -/
def scanCitation : PyStr → Bool
  | [] => false
  | c :: t => matchAnyCitation (c :: t) || scanCitation t

/-- The `has_citation` test of `_validate_citations` (lines 286 to 290):
search the lowered answer for any of the five patterns. -/
def hasCitation (s : PyStr) : Bool := scanCitation (pyLower s)

/-! ## Data model -/

/-- One cached document of `self.documents_list` (retriever.py lines
114 to 118): page content plus the metadata the engine reads.  Ingestion
(ingest.py lines 74 to 77) always sets an integer page of at least 1. -/
structure CachedDoc where
  content : PyStr
  page : Nat
  source : PyStr
  deriving DecidableEq

/-- One formatted retrieval result (retriever.py lines 189 to 194 and
253 to 258): content, page, source file and score. -/
structure RetrievedDoc where
  content : PyStr
  page : Nat
  source : PyStr
  score : ℚ
  deriving DecidableEq

/-- One entry of the `sources` field built by `ask` (lines 549 to 556). -/
structure SourceEntry where
  page : Nat
  snippet : PyStr
  score : ℚ
  deriving DecidableEq

/-- The dict returned by `ask` (lines 558 to 562). -/
structure AnswerResult where
  answer : PyStr
  sources : List SourceEntry
  question : PyStr
  deriving DecidableEq

/-! ## Score fusion (retriever.py `_hybrid_search`, lines 200 to 261)

The two channels' outputs are the inputs of the merge: the lexical
channel delivers `(index, normalized score)` pairs (`bm25_scores`,
line 216), the semantic channel delivers `(page content, distance)`
pairs as returned by `similarity_search_with_score` (line 219). -/

/-- Python dict assignment `m[k] = v`: overwrite in place if the key is
present, else append (dicts preserve insertion order). -/
def dictInsert (m : List (Nat × ℚ)) (k : Nat) (v : ℚ) : List (Nat × ℚ) :=
  if m.any (fun p => p.1 = k) then
    m.map (fun p => if p.1 = k then (k, v) else p)
  else m ++ [(k, v)]

/-- Python `m.get(i, 0.0)` on an association list. -/
def lookupScore (m : List (Nat × ℚ)) (i : Nat) : ℚ :=
  ((m.find? (fun p => p.1 = i)).map Prod.snd).getD 0

/-- Lines 222 to 230: map each semantic hit back to an index of
`documents_list` by scanning for the first cached document whose content
string equals the hit's content (`if cached_doc['content'] ==
doc.page_content`), converting the distance by 1/(1+distance); hits
without a matching content are dropped, and hits mapping to the same
index overwrite one another in the dict. -/
def mapSemanticToIndices (docs : List CachedDoc) (hits : List (PyStr × ℚ)) :
    List (Nat × ℚ) :=
  hits.foldl
    (fun acc h =>
      match docs.findIdx? (fun d => d.content = h.1) with
      | some idx => dictInsert acc idx (1 / (1 + h.2))
      | none => acc)
    []

/-- A stable insertion: `keep y x = true` means the already-placed
element y stays in front of the newly inserted x. -/
def stInsert (keep : α → α → Bool) (x : α) : List α → List α
  | [] => [x]
  | y :: ys => if keep y x then y :: stInsert keep x ys else x :: y :: ys

/-- A stable insertion sort (elements are inserted back to front, so an
element placed no further right than an equal one keeps its position,
like Python list.sort). -/
def stSort (keep : α → α → Bool) : List α → List α
  | [] => []
  | x :: xs => stInsert keep x (stSort keep xs)

/-- Line 247, `hybrid_scores.sort(key=lambda x: x[1], reverse=True)`:
stable sort by score descending, an earlier element yielding only to a
strictly greater score. -/
def scoreKeep (y x : Nat × ℚ) : Bool := decide (x.2 < y.2)

/-- Line 233 builds `all_indices` as a Python set of ints and line 236
iterates it.  Model of CPython set iteration for the small sets that
occur here (at most a handful of elements, pairwise distinct modulo 8):
the table has 8 slots, an int hashes to itself, so iteration visits the
keys in ascending order of slot `n mod 8` (for example iter over the set
of 1 and 8 yields 8 first, since 8 sits in slot 0).  The keys list is
deduplicated first (a set holds each key once). -/
def pySetIterOrder (keys : List Nat) : List Nat :=
  stSort (fun y x => decide (y % 8 < x % 8)) keys.dedup

/-- The ids present in either channel (line 233, the set union). -/
def unionIds (lex sem : List (Nat × ℚ)) : List Nat :=
  ((lex.map Prod.fst) ++ (sem.map Prod.fst)).dedup

/-- Lines 236 to 242: the fused score of one candidate, with the fixed
weights `bm25_weight = 0.3` and `semantic_weight = 0.7` of lines 61 to
62, and a missing channel entry defaulting to 0. -/
def fusedScore (lex sem : List (Nat × ℚ)) (i : Nat) : ℚ :=
  3 / 10 * lookupScore lex i + 7 / 10 * lookupScore sem i

/-- Lines 233 to 244: every candidate of the union with its fused score,
in set-iteration order. -/
def hybridAll (lex sem : List (Nat × ℚ)) : List (Nat × ℚ) :=
  (pySetIterOrder (unionIds lex sem)).map (fun i => (i, fusedScore lex sem i))

/-- Line 247: the candidates sorted by fused score descending (stable). -/
def hybridRanked (lex sem : List (Nat × ℚ)) : List (Nat × ℚ) :=
  stSort scoreKeep (hybridAll lex sem)

/-- Line 251: keep the top k. -/
def hybridTop (k : Nat) (lex sem : List (Nat × ℚ)) : List (Nat × ℚ) :=
  (hybridRanked lex sem).take k

/-- Lines 250 to 258: format the ranked candidates, reading each
document back from `documents_list` by index. -/
def formatHybrid (docs : List CachedDoc) (ranked : List (Nat × ℚ)) :
    List RetrievedDoc :=
  ranked.map (fun p =>
    let d := docs.getD p.1 ⟨[], 0, []⟩
    { content := d.content, page := d.page, source := d.source, score := p.2 })

/-- `_hybrid_search` from the channel outputs onward (lines 214 to 261). -/
def hybridSearch (docs : List CachedDoc) (lex : List (Nat × ℚ))
    (hits : List (PyStr × ℚ)) (k : Nat) : List RetrievedDoc :=
  formatHybrid docs (hybridTop k lex (mapSemanticToIndices docs hits))

/-- `_semantic_search` (lines 183 to 197), from the pairs returned by
`similarity_search_with_score`: the raw FAISS distance is stored as the
result's score unchanged (line 193). -/
def semanticSearchOnly (pairs : List (CachedDoc × ℚ)) : List RetrievedDoc :=
  pairs.map (fun pr =>
    { content := pr.1.content, page := pr.1.page, source := pr.1.source,
      score := pr.2 })

/-- The conversion applied to a semantic distance inside the hybrid path
(line 229). -/
def semanticConvert (d : ℚ) : ℚ := 1 / (1 + d)

/-! ## Generation and citation validation -/

/-- The failure kinds of the generation backends (connection refused,
missing key, timeout; an unknown provider raises ValueError at line
511). -/
inductive GenErr where
  | connectionFailure
  | authFailure
  | timeout
  | unsupportedBackend
  deriving DecidableEq

/-- The effective `_call_mock` (retriever.py lines 477 to 489; the class
body defines `_call_mock` twice and Python keeps this later one): for
each of the first two contexts, a line citing the page followed by the
first 300 characters of the content, joined under a fixed header and
footer.  The prompt argument is unused, as in the source. -/
def callMock (_prompt : PyStr) (contexts : List RetrievedDoc) : PyStr :=
  let info := (contexts.take 2).map (fun ctx =>
    ("Conforme documentação (Página ").toList ++ natDigits ctx.page ++
      ("): ").toList ++ ctx.content.take 300 ++ ("...").toList)
  ("Baseado na documentação técnica disponível:\n\n").toList ++ joinNN info ++
    ("\n\n[NOTA: Esta é uma resposta simulada usando modo MOCK. Para respostas completas geradas por IA, configure um LLM real (Ollama ou OpenAI).]").toList

/-- The shadowed `_call_mock` (retriever.py lines 305 to 335), dead code
because the class body later rebinds the name: for each of the first two
contexts it extracts the first sentence longer than 20 characters
(falling back to the first 200 characters), prepending a page citation. -/
def callMockShadowed (_prompt : PyStr) (contexts : List RetrievedDoc) : PyStr :=
  if contexts.isEmpty then
    ("Informação não encontrada na documentação fornecida.").toList
  else
    let info := (contexts.take 2).map (fun ctx =>
      let content := pyStrip ctx.content
      let sentences := pySplitDotSpace content
      let relevant :=
        (sentences.find? (fun s => 20 < (pyStrip s).length)).getD
          (content.take 200)
      ("Conforme página ").toList ++ natDigits ctx.page ++ (": ").toList ++
        pyStrip relevant ++ ".".toList)
    ("Baseado na documentação técnica:\n\n").toList ++ joinNN info ++
      ("\n\n[NOTA: Resposta em modo MOCK. Configure Ollama ou OpenAI para respostas completas geradas por IA.]").toList

/-- `_build_prompt` (lines 337 to 370): the grounding template around
the page-marked contexts and the question. -/
def buildPrompt (question : PyStr) (contexts : List RetrievedDoc) : PyStr :=
  let contextText := joinNN (contexts.map (fun ctx =>
    ("[Página ").toList ++ natDigits ctx.page ++ ("]\n").toList ++ ctx.content))
  ("Você é um assistente técnico especializado em documentação de produtos.\nSua tarefa é responder perguntas baseando-se EXCLUSIVAMENTE nas informações fornecidas abaixo.\n\nINSTRUÇÕES IMPORTANTES:\n1. Use APENAS as informações dos documentos fornecidos\n2. Cite sempre a página de onde veio a informação (ex: \"Conforme página 2...\")\n3. Se a informação não estiver nos documentos, responda: \"Informação não encontrada na documentação fornecida\"\n4. Seja preciso e técnico\n5. Não invente ou especule informações\n\nDOCUMENTOS:\n").toList
    ++ contextText
    ++ ("\n\nPERGUNTA: ").toList ++ question ++ ("\n\nRESPOSTA (cite as páginas):").toList

/-- `_generate_answer` (lines 491 to 511): string-keyed dispatch on the
configured provider; the remote backends may fail, the mock cannot, an
unknown provider raises ValueError. -/
def generateAnswer (provider : PyStr)
    (ollamaB openaiB : PyStr → Except GenErr PyStr)
    (prompt : PyStr) (contexts : List RetrievedDoc) : Except GenErr PyStr :=
  if provider = ("ollama").toList then ollamaB prompt
  else if provider = ("openai").toList then openaiB prompt
  else if provider = ("mock").toList then Except.ok (callMock prompt contexts)
  else Except.error GenErr.unsupportedBackend

/-- `_validate_citations` (lines 263 to 303): with no sources the answer
passes through; otherwise, if no citation pattern is found in the
lowered answer, a citation of the top source's page is prepended. -/
def validateCitations (answer : PyStr) (sources : List RetrievedDoc) : PyStr :=
  match sources with
  | [] => answer
  | top :: _ =>
    if hasCitation answer then answer
    else ("Conforme página ").toList ++ natDigits top.page ++ (": ").toList ++ answer

/-- The snippet of one source (line 552): the content itself when it has
at most 200 characters, else its first 200 characters plus an ellipsis. -/
def mkSnippet (content : PyStr) : PyStr :=
  if 200 < content.length then content.take 200 ++ ("...").toList else content

/-- One formatted source entry (lines 549 to 556). -/
def mkSource (ctx : RetrievedDoc) : SourceEntry :=
  { page := ctx.page, snippet := mkSnippet ctx.content, score := ctx.score }

/-- The canned answer of the zero-chunk short circuit (line 528). -/
def notFoundAnswer : PyStr :=
  ("Nenhum documento relevante encontrado na base de conhecimento.").toList

/-- `ask` (lines 513 to 562), from the retrieved contexts onward: the
zero-chunk short circuit, generation with the try/except fallback to
`_call_mock`, citation validation, and assembly of the result (the
answer is stripped at line 559). -/
def askCore (provider : PyStr) (ollamaB openaiB : PyStr → Except GenErr PyStr)
    (question : PyStr) (contexts : List RetrievedDoc) : AnswerResult :=
  match contexts with
  | [] => { answer := notFoundAnswer, sources := [], question := question }
  | top :: rest =>
    let ctxs := top :: rest
    let prompt := buildPrompt question ctxs
    let answer :=
      match generateAnswer provider ollamaB openaiB prompt ctxs with
      | Except.ok a => a
      | Except.error _ => callMock prompt ctxs
    let validated := validateCitations answer ctxs
    { answer := pyStrip validated, sources := ctxs.map mkSource,
      question := question }

/-- `ask` with exception propagation made explicit: an uncaught backend
exception would surface as `Except.error`.  The try/except of lines 537
to 543 catches every generation failure, so the only possible outcome is
`Except.ok` of `askCore`. -/
def askExc (provider : PyStr) (ollamaB openaiB : PyStr → Except GenErr PyStr)
    (question : PyStr) (contexts : List RetrievedDoc) :
    Except GenErr AnswerResult :=
  match contexts with
  | [] => Except.ok { answer := notFoundAnswer, sources := [], question := question }
  | top :: rest =>
    let ctxs := top :: rest
    let prompt := buildPrompt question ctxs
    let answer :=
      match generateAnswer provider ollamaB openaiB prompt ctxs with
      | Except.ok a => a
      | Except.error _ => callMock prompt ctxs
    let validated := validateCitations answer ctxs
    Except.ok { answer := pyStrip validated, sources := ctxs.map mkSource,
                question := question }

/-! ## The engine state and the API handler (api.py) -/

/-- The retriever's state as the handler sees it: the shared `top_k`
field (retriever.py line 57) plus the fixed configuration — the corpus
cache, the two retrieval channels as functions of the query, the
provider and the backends. -/
structure Engine where
  top_k : Nat
  provider : PyStr
  corpus : List CachedDoc
  lexF : PyStr → List (Nat × ℚ)
  semF : PyStr → List (PyStr × ℚ)
  ollamaB : PyStr → Except GenErr PyStr
  openaiB : PyStr → Except GenErr PyStr

/-- `search` in hybrid mode for a given k (lines 160 to 180). -/
def engineSearch (e : Engine) (q : PyStr) (k : Nat) : List RetrievedDoc :=
  hybridSearch e.corpus (e.lexF q) (e.semF q) k

/-- `DocumentRetriever.ask` (line 513): it takes only the question — no
per-call k parameter — and reads the retrieval depth from the shared
`self.top_k` field via `search` (lines 171 to 172, 524). -/
def engineAsk (e : Engine) (q : PyStr) : AnswerResult :=
  askCore e.provider e.ollamaB e.openaiB q (engineSearch e q e.top_k)

/-- api.py line 231, `retriever.top_k = request.top_k`: the handler
writes the request's per-query k into the shared engine state. -/
def askQuestionSetK (e : Engine) (reqK : Nat) : Engine :=
  { e with top_k := reqK }

/-- The `/ask` handler body (api.py lines 230 to 235) as explicit state
passing: save the shared `top_k`, overwrite it with the request's value,
run `ask`, then write the saved value back. -/
def askQuestionHandler (e : Engine) (q : PyStr) (reqK : Nat) :
    Engine × AnswerResult :=
  let original := e.top_k
  let e1 := askQuestionSetK e reqK
  let result := engineAsk e1 q
  let e2 := { e1 with top_k := original }
  (e2, result)

/-- A small concrete engine used to exercise the handler: two cached
documents, a lexical channel scoring both, an empty semantic channel,
the mock provider. -/
def exEngine : Engine :=
  { top_k := 1
    provider := ("mock").toList
    corpus := [⟨("a").toList, 1, ("f").toList⟩, ⟨("b").toList, 2, ("f").toList⟩]
    lexF := fun _ => [(0, 1), (1, 1 / 2)]
    semF := fun _ => []
    ollamaB := fun _ => Except.error GenErr.connectionFailure
    openaiB := fun _ => Except.error GenErr.connectionFailure }

/-! ## Helper lemmas: the stable sort -/

lemma mem_stInsert (keep : α → α → Bool) (x a : α) (l : List α) :
    a ∈ stInsert keep x l ↔ a = x ∨ a ∈ l := by
  induction l with
  | nil => simp [stInsert]
  | cons y ys ih =>
    by_cases h : keep y x = true <;> simp [stInsert, h, ih] <;> tauto

lemma stInsert_perm (keep : α → α → Bool) (x : α) (l : List α) :
    (stInsert keep x l).Perm (x :: l) := by
  induction l with
  | nil => exact List.Perm.refl _
  | cons y ys ih =>
    by_cases h : keep y x = true
    · simp only [stInsert, if_pos h]
      exact (ih.cons y).trans (List.Perm.swap x y ys)
    · simp only [stInsert, if_neg h]
      exact List.Perm.refl _

lemma stSort_perm (keep : α → α → Bool) (l : List α) :
    (stSort keep l).Perm l := by
  induction l with
  | nil => exact List.Perm.refl _
  | cons x xs ih =>
    exact ((stInsert_perm keep x (stSort keep xs)).trans (ih.cons x))

lemma pairwise_stInsert {R : α → α → Prop} (keep : α → α → Bool)
    (hT : ∀ a b, keep a b = true → R a b)
    (hF : ∀ a b, keep a b = false → R b a)
    (htr : Transitive R) (x : α) (l : List α) :
    l.Pairwise R → (stInsert keep x l).Pairwise R := by
  induction l with
  | nil => intro _; simp [stInsert]
  | cons y ys ih =>
    intro hp
    rcases List.pairwise_cons.mp hp with ⟨hy, hys⟩
    by_cases h : keep y x = true
    · simp only [stInsert, if_pos h]
      refine List.pairwise_cons.mpr ⟨?_, ih hys⟩
      intro z hz
      rcases (mem_stInsert keep x z ys).mp hz with rfl | hz
      · exact hT y z h
      · exact hy z hz
    · simp only [stInsert, if_neg h]
      refine List.pairwise_cons.mpr ⟨?_, hp⟩
      intro z hz
      rcases List.mem_cons.mp hz with rfl | hz
      · exact hF z x (by simpa using h)
      · exact htr (hF y x (by simpa using h)) (hy z hz)

lemma pairwise_stSort {R : α → α → Prop} (keep : α → α → Bool)
    (hT : ∀ a b, keep a b = true → R a b)
    (hF : ∀ a b, keep a b = false → R b a)
    (htr : Transitive R) (l : List α) :
    (stSort keep l).Pairwise R := by
  induction l with
  | nil => simp [stSort]
  | cons x xs ih => exact pairwise_stInsert keep hT hF htr x _ ih

lemma stInsert_decomp (keep : α → α → Bool) (x : α) (l : List α) :
    ∃ l₁ l₂, stInsert keep x l = l₁ ++ x :: l₂ ∧ l = l₁ ++ l₂ ∧
      ∀ z ∈ l₁, keep z x = true := by
  induction l with
  | nil => exact ⟨[], [], rfl, rfl, by simp⟩
  | cons y ys ih =>
    by_cases h : keep y x = true
    · rcases ih with ⟨m₁, m₂, he, hl, hm⟩
      refine ⟨y :: m₁, m₂, ?_, ?_, ?_⟩
      · simp [stInsert, if_pos h, he]
      · simp [hl]
      · intro z hz
        rcases List.mem_cons.mp hz with rfl | hz
        · exact h
        · exact hm z hz
    · exact ⟨[], y :: ys, by simp [stInsert, if_neg h], rfl, by simp⟩

lemma filter_stSort_score (q : ℚ) (l : List (Nat × ℚ)) :
    (stSort scoreKeep l).filter (fun p => decide (p.2 = q)) =
      l.filter (fun p => decide (p.2 = q)) := by
  induction l with
  | nil => rfl
  | cons x xs ih =>
    show (stInsert scoreKeep x (stSort scoreKeep xs)).filter _ = _
    rcases stInsert_decomp scoreKeep x (stSort scoreKeep xs) with
      ⟨m₁, m₂, he, hl, hm⟩
    have hm₁ : m₁.filter (fun p => decide (p.2 = q)) = [] ∨ x.2 ≠ q := by
      by_cases hx : x.2 = q
      · left
        refine List.filter_eq_nil_iff.mpr ?_
        intro z hz
        have := hm z hz
        simp only [scoreKeep, decide_eq_true_eq] at this
        simp only [decide_eq_true_eq]
        intro hq
        rw [hx] at this
        rw [hq] at this
        exact lt_irrefl _ this
      · right; exact hx
    by_cases hx : x.2 = q
    · have hpx : (decide (x.2 = q)) = true := by simpa using hx
      rcases hm₁ with hnil | hne
      · have h2 : (stSort scoreKeep xs).filter (fun p => decide (p.2 = q)) =
            m₂.filter (fun p => decide (p.2 = q)) := by
          rw [hl, List.filter_append, hnil, List.nil_append]
        have h3 : m₂.filter (fun p => decide (p.2 = q)) =
            xs.filter (fun p => decide (p.2 = q)) := by
          rw [← h2, ih]
        rw [he, List.filter_append, hnil, List.nil_append, List.filter_cons,
          List.filter_cons, hpx, if_pos rfl, if_pos rfl, h3]
      · exact absurd hx hne
    · have hpx : (decide (x.2 = q)) = false := by simpa using hx
      rw [he, List.filter_append, List.filter_cons, List.filter_cons, hpx,
        if_neg Bool.false_ne_true, if_neg Bool.false_ne_true,
        ← List.filter_append, ← hl, ih]

/-! ## Helper lemmas: the dict and the semantic index mapping -/

lemma mem_dictInsert (m : List (Nat × ℚ)) (k : Nat) (v : ℚ) (p : Nat × ℚ) :
    p ∈ dictInsert m k v → p = (k, v) ∨ p ∈ m := by
  unfold dictInsert
  split
  · intro hp
    rcases List.mem_map.mp hp with ⟨a, ha, he⟩
    by_cases h : a.1 = k
    · left; rw [← he]; simp [h]
    · right; rw [← he]; simpa [h] using ha
  · intro hp
    rcases List.mem_append.mp hp with h | h
    · right; exact h
    · left; simpa using h

lemma mapSemanticToIndices_aux (docs : List CachedDoc)
    (hits : List (PyStr × ℚ)) (acc : List (Nat × ℚ)) (p : Nat × ℚ) :
    p ∈ hits.foldl
      (fun acc h =>
        match docs.findIdx? (fun d => d.content = h.1) with
        | some idx => dictInsert acc idx (1 / (1 + h.2))
        | none => acc) acc →
    p ∈ acc ∨ ∃ h ∈ hits,
      docs.findIdx? (fun d => d.content = h.1) = some p.1 ∧
        p.2 = 1 / (1 + h.2) := by
  induction hits generalizing acc with
  | nil => intro hp; exact Or.inl hp
  | cons h hs ih =>
    intro hp
    simp only [List.foldl_cons] at hp
    rcases ih _ hp with hin | ⟨h', hh', hfind, hval⟩
    · rcases hfi : docs.findIdx? (fun d => d.content = h.1) with _ | idx
      · rw [hfi] at hin
        exact Or.inl hin
      · rw [hfi] at hin
        rcases mem_dictInsert _ _ _ _ hin with rfl | hacc
        · exact Or.inr ⟨h, List.mem_cons_self _ _, by simpa using hfi, rfl⟩
        · exact Or.inl hacc
    · exact Or.inr ⟨h', List.mem_cons_of_mem _ hh', hfind, hval⟩

lemma mapSemanticToIndices_mem (docs : List CachedDoc)
    (hits : List (PyStr × ℚ)) (p : Nat × ℚ) :
    p ∈ mapSemanticToIndices docs hits →
    ∃ h ∈ hits, docs.findIdx? (fun d => d.content = h.1) = some p.1 ∧
      p.2 = 1 / (1 + h.2) := by
  intro hp
  rcases mapSemanticToIndices_aux docs hits [] p hp with hin | hex
  · simp at hin
  · exact hex

/-! ## Helper lemmas: digits, whitespace, lowering -/

lemma digitChar_isDigit (n : Nat) (h : n < 10) : isDigitCh (digitChar n) = true := by
  interval_cases n <;> decide

lemma natDigitsF_ne_nil (f n : Nat) : natDigitsF f n ≠ [] := by
  cases f with
  | zero => simp [natDigitsF]
  | succ f => simp only [natDigitsF]; split <;> simp

lemma natDigits_ne_nil (n : Nat) : natDigits n ≠ [] :=
  natDigitsF_ne_nil n n

lemma natDigitsF_all_digit (f : Nat) :
    ∀ n, ∀ c ∈ natDigitsF f n, isDigitCh c = true := by
  induction f with
  | zero =>
    intro n c hc
    rcases List.mem_singleton.mp hc with rfl
    exact digitChar_isDigit _ (Nat.mod_lt _ (by omega))
  | succ f ih =>
    intro n c hc
    simp only [natDigitsF] at hc
    split at hc
    · rcases List.mem_singleton.mp hc with rfl
      exact digitChar_isDigit n (by assumption)
    · rcases List.mem_append.mp hc with hc | hc
      · exact ih (n / 10) c hc
      · rcases List.mem_singleton.mp hc with rfl
        exact digitChar_isDigit _ (Nat.mod_lt _ (by omega))

lemma natDigits_all_digit (n : Nat) :
    ∀ c ∈ natDigits n, isDigitCh c = true :=
  natDigitsF_all_digit n n

lemma pyIsSpace_elim (c : Char) (h : pyIsSpace c = true) :
    c = ' ' ∨ c = '\t' ∨ c = '\n' ∨ c = '\r' ∨ c = '\x0b' ∨ c = '\x0c' := by
  simp only [pyIsSpace, Bool.or_eq_true, beq_iff_eq] at h
  tauto

lemma isDigit_not_ws (c : Char) (h : isDigitCh c = true) : pyIsSpace c = false := by
  by_contra hw
  have hw' : pyIsSpace c = true := by
    revert hw; cases pyIsSpace c <;> simp
  rcases pyIsSpace_elim c hw' with rfl | rfl | rfl | rfl | rfl | rfl <;>
    exact absurd h (by decide)

lemma ws_not_digit (c : Char) (h : pyIsSpace c = true) : isDigitCh c = false := by
  by_contra hd
  have hd' : isDigitCh c = true := by
    revert hd; cases isDigitCh c <;> simp
  rw [isDigit_not_ws c hd'] at h
  exact Bool.false_ne_true h

lemma ws_pyLowerChar (c : Char) : pyIsSpace (pyLowerChar c) = pyIsSpace c := by
  unfold pyLowerChar
  split <;> first | rfl | decide

lemma digit_pyLowerChar (c : Char) (h : isDigitCh c = true) : pyLowerChar c = c := by
  unfold pyLowerChar
  split <;> first | rfl | (exact absurd h (by decide))

lemma map_digits_id (l : PyStr) (h : ∀ c ∈ l, isDigitCh c = true) :
    List.map pyLowerChar l = l := by
  induction l with
  | nil => rfl
  | cons c cs ih =>
    rw [List.map_cons, digit_pyLowerChar c (h c (by simp)),
      ih (fun x hx => h x (List.mem_cons_of_mem _ hx))]

lemma pyLower_natDigits (p : Nat) : pyLower (natDigits p) = natDigits p :=
  map_digits_id _ (natDigits_all_digit p)

/-! ## Helper lemmas: the scanner is stable under strip and lower -/

lemma pyRstrip_append_ws (l : PyStr) (c : Char) (h : pyIsSpace c = true) :
    pyRstrip (l ++ [c]) = pyRstrip l := by
  unfold pyRstrip
  rw [List.reverse_append]
  simp [List.dropWhile_cons, h]

lemma pyRstrip_append_not_ws (l : PyStr) (c : Char) (h : pyIsSpace c = false) :
    pyRstrip (l ++ [c]) = l ++ [c] := by
  unfold pyRstrip
  rw [List.reverse_append]
  simp [List.dropWhile_cons, h]

lemma matchAny_ws_head (c : Char) (t : PyStr) (h : pyIsSpace c = true) :
    matchAnyCitation (c :: t) = false := by
  rcases pyIsSpace_elim c h with rfl | rfl | rfl | rfl | rfl | rfl <;> rfl

lemma scan_cons_ws (c : Char) (t : PyStr) (h : pyIsSpace c = true) :
    scanCitation (c :: t) = scanCitation t := by
  simp [scanCitation, matchAny_ws_head c t h]

lemma scan_lstrip (l : PyStr) :
    scanCitation (l.dropWhile pyIsSpace) = scanCitation l := by
  induction l with
  | nil => rfl
  | cons c t ih =>
    by_cases hw : pyIsSpace c = true
    · rw [List.dropWhile_cons, if_pos hw, ih, scan_cons_ws c t hw]
    · rw [List.dropWhile_cons, if_neg hw]

lemma matchLit_append_ws (lit l : PyStr) (c : Char)
    (hlit : ∀ x ∈ lit, pyIsSpace x = false) (h : pyIsSpace c = true) :
    matchLit lit (l ++ [c]) = (matchLit lit l).map (fun r => r ++ [c]) := by
  induction lit generalizing l with
  | nil => rfl
  | cons hd tl ih =>
    cases l with
    | nil =>
      have hne : c ≠ hd := by
        intro he
        rw [he] at h
        rw [hlit hd (by simp)] at h
        exact Bool.false_ne_true h
      simp [matchLit, hne]
    | cons x xs =>
      by_cases hx : x = hd
      · simp only [List.cons_append, matchLit, if_pos hx]
        exact ih xs (fun y hy => hlit y (List.mem_cons_of_mem _ hy))
      · simp [matchLit, hx]

lemma dropWhile_append_single (p : Char → Bool) (xs : PyStr) (c : Char)
    (hc : p c = false) :
    List.dropWhile p (xs ++ [c]) = xs.dropWhile p ++ [c] := by
  rw [List.dropWhile_append]
  split
  · rename_i hE
    have hr : xs.dropWhile p = [] := by simpa using hE
    rw [hr, List.nil_append]
    simp [List.dropWhile_cons, hc]
  · rfl

lemma wsDig_append_ws (l : PyStr) (c : Char) (h : pyIsSpace c = true) :
    wsDig (l ++ [c]) = wsDig l := by
  unfold wsDig
  rcases hD : l.dropWhile pyIsSpace with _ | ⟨d, t⟩
  · rw [List.dropWhile_append, hD]
    simp [List.dropWhile_cons, h, headDigit]
  · rw [List.dropWhile_append, hD]
    simp [headDigit]

lemma wsPlusDig_append_ws (l : PyStr) (c : Char) (h : pyIsSpace c = true) :
    wsPlusDig (l ++ [c]) = wsPlusDig l := by
  cases l with
  | nil => simp [wsPlusDig, wsDig, headDigit, h]
  | cons x xs =>
    show wsPlusDig (x :: (xs ++ [c])) = _
    simp only [wsPlusDig]
    rw [wsDig_append_ws xs c h]

lemma digRunClose_append_ws (close : Char) (l : PyStr) (c : Char)
    (h : pyIsSpace c = true) (hcl : pyIsSpace close = false) :
    digRunClose close (l ++ [c]) = digRunClose close l := by
  have hcd : isDigitCh c = false := ws_not_digit c h
  have hne : c ≠ close := by
    intro he; rw [he, hcl] at h; exact Bool.false_ne_true h
  cases l with
  | nil => simp [digRunClose, hcd]
  | cons d rest =>
    show digRunClose close (d :: (rest ++ [c])) = _
    simp only [digRunClose]
    rw [dropWhile_append_single _ _ _ hcd]
    rcases hD : rest.dropWhile isDigitCh with _ | ⟨x, t⟩
    · simp [hne]
    · rfl

lemma wsPlusDigClose_append_ws (close : Char) (l : PyStr) (c : Char)
    (h : pyIsSpace c = true) (hcl : pyIsSpace close = false) :
    wsPlusDigClose close (l ++ [c]) = wsPlusDigClose close l := by
  cases l with
  | nil => simp [wsPlusDigClose, digRunClose, List.dropWhile_cons, h]
  | cons x xs =>
    show wsPlusDigClose close (x :: (xs ++ [c])) = _
    simp only [wsPlusDigClose]
    rcases hD : xs.dropWhile pyIsSpace with _ | ⟨y, t⟩
    · rw [List.dropWhile_append, hD]
      simp [List.dropWhile_cons, h, digRunClose]
    · rw [List.dropWhile_append, hD, if_neg (by simp),
        digRunClose_append_ws close (y :: t) c h hcl]

lemma matchAny_append_ws (l : PyStr) (c : Char) (h : pyIsSpace c = true) :
    matchAnyCitation (l ++ [c]) = matchAnyCitation l := by
  unfold matchAnyCitation
  have e1 : matchP1 (l ++ [c]) = matchP1 l := by
    unfold matchP1
    rw [matchLit_append_ws _ l c (by decide) h]
    rcases matchLit ('p' :: 'á' :: 'g' :: 'i' :: 'n' :: 'a' :: []) l with _ | r
    · rfl
    · exact wsPlusDig_append_ws r c h
  have e2 : matchP2 (l ++ [c]) = matchP2 l := by
    unfold matchP2
    rw [matchLit_append_ws _ l c (by decide) h]
    rcases matchLit ('p' :: 'á' :: 'g' :: '.' :: []) l with _ | r
    · rfl
    · exact wsDig_append_ws r c h
  have e3 : matchP3 (l ++ [c]) = matchP3 l := by
    unfold matchP3
    rw [matchLit_append_ws _ l c (by decide) h]
    rcases matchLit ('p' :: '.' :: []) l with _ | r
    · rfl
    · exact wsDig_append_ws r c h
  have e4 : matchP4 (l ++ [c]) = matchP4 l := by
    unfold matchP4
    rw [matchLit_append_ws _ l c (by decide) h]
    rcases matchLit ('[' :: 'p' :: 'á' :: 'g' :: 'i' :: 'n' :: 'a' :: []) l with _ | r
    · rfl
    · exact wsPlusDigClose_append_ws ']' r c h (by decide)
  have e5 : matchP5 (l ++ [c]) = matchP5 l := by
    unfold matchP5
    rw [matchLit_append_ws _ l c (by decide) h]
    rcases matchLit ('(' :: 'p' :: 'á' :: 'g' :: 'i' :: 'n' :: 'a' :: []) l with _ | r
    · rfl
    · exact wsPlusDigClose_append_ws ')' r c h (by decide)
  rw [e1, e2, e3, e4, e5]

lemma scan_append_ws (l : PyStr) (c : Char) (h : pyIsSpace c = true) :
    scanCitation (l ++ [c]) = scanCitation l := by
  induction l with
  | nil =>
    simp [scanCitation, matchAny_ws_head c [] h]
  | cons x xs ih =>
    show scanCitation (x :: (xs ++ [c])) = _
    unfold scanCitation
    rw [ih]
    have : matchAnyCitation (x :: (xs ++ [c])) = matchAnyCitation (x :: xs) := by
      have := matchAny_append_ws (x :: xs) c h
      simpa using this
    rw [this]

lemma scan_rstrip (l : PyStr) :
    scanCitation (pyRstrip l) = scanCitation l := by
  induction l using List.reverseRecOn with
  | nil => rfl
  | append_singleton l' c ih =>
    by_cases h : pyIsSpace c = true
    · rw [pyRstrip_append_ws l' c h, ih, scan_append_ws l' c h]
    · rw [pyRstrip_append_not_ws l' c (by simpa using h)]

lemma scan_strip (l : PyStr) :
    scanCitation (pyStrip l) = scanCitation l := by
  unfold pyStrip pyLstrip
  rw [scan_rstrip, scan_lstrip]

lemma pyLower_strip (s : PyStr) : pyLower (pyStrip s) = pyStrip (pyLower s) := by
  have hpf : (pyIsSpace ∘ pyLowerChar) = pyIsSpace := funext ws_pyLowerChar
  unfold pyLower pyStrip pyLstrip pyRstrip
  rw [List.dropWhile_map, hpf, ← List.map_reverse, List.dropWhile_map, hpf,
    ← List.map_reverse]

lemma hasCitation_strip (s : PyStr) :
    hasCitation (pyStrip s) = hasCitation s := by
  unfold hasCitation
  rw [pyLower_strip, scan_strip]

lemma scan_suffix (pre suf : PyStr) (h : matchAnyCitation suf = true) :
    scanCitation (pre ++ suf) = true := by
  induction pre with
  | nil =>
    cases suf with
    | nil => exact absurd h (by decide)
    | cons c t => simp [scanCitation, h]
  | cons x xs ih =>
    show scanCitation (x :: (xs ++ suf)) = true
    unfold scanCitation
    rw [ih]
    simp

lemma matchP1_at_digit (d : Char) (rest : PyStr) (hd : isDigitCh d = true) :
    matchP1 (('p' :: 'á' :: 'g' :: 'i' :: 'n' :: 'a' :: ' ' :: []) ++ (d :: rest)) = true := by
  have hnw : pyIsSpace d = false := isDigit_not_ws d hd
  have hsp : pyIsSpace ' ' = true := by decide
  simp [matchP1, matchLit, wsPlusDig, wsDig, List.dropWhile_cons, hnw,
    headDigit, hd, hsp]

lemma hasCitation_prepend (p : Nat) (ans : PyStr) :
    hasCitation (("Conforme página ").toList ++ natDigits p ++ (": ").toList ++ ans) = true := by
  unfold hasCitation pyLower
  rcases hnd : natDigits p with _ | ⟨d, ds⟩
  · exact absurd hnd (natDigits_ne_nil p)
  have hall : ∀ c ∈ d :: ds, isDigitCh c = true := by
    intro c hc
    exact natDigits_all_digit p c (hnd ▸ hc)
  have hdig : isDigitCh d = true := hall d (by simp)
  rw [List.map_append, List.map_append, List.map_append,
    map_digits_id (d :: ds) hall]
  have h1 : List.map pyLowerChar (("Conforme página ").toList) =
      ("conforme ").toList ++ ('p' :: 'á' :: 'g' :: 'i' :: 'n' :: 'a' :: ' ' :: []) := by
    decide
  rw [h1]
  have hmatch : matchAnyCitation
      (('p' :: 'á' :: 'g' :: 'i' :: 'n' :: 'a' :: ' ' :: []) ++
        (d :: (ds ++ (List.map pyLowerChar ((": ").toList) ++
          List.map pyLowerChar ans)))) = true := by
    unfold matchAnyCitation
    rw [matchP1_at_digit d _ hdig]
    simp
  have hs := scan_suffix (("conforme ").toList) _ hmatch
  simpa [List.append_assoc] using hs

lemma validate_strip_hasCitation (ans : PyStr) (top : RetrievedDoc)
    (rest : List RetrievedDoc) :
    hasCitation (pyStrip (validateCitations ans (top :: rest))) = true := by
  rw [hasCitation_strip]
  unfold validateCitations
  by_cases h : hasCitation ans = true
  · simp [h]
  · have h' : hasCitation ans = false := by simpa using h
    simp only [h', Bool.false_eq_true, if_false]
    exact hasCitation_prepend top.page ans

/-- Concrete evaluation of scenario B: candidate 0 only lexical (1.0),
candidate 1 only semantic (1.0). -/
lemma eval_scenarioB :
    hybridTop 2 [(0, 1)] [(1, 1)] = [(1, 7 / 10), (0, 3 / 10)] := by
  norm_num [hybridTop, hybridRanked, hybridAll, pySetIterOrder, unionIds,
    fusedScore, lookupScore, stSort, stInsert, scoreKeep, List.dedup_nil,
    List.dedup_cons_of_mem, List.dedup_cons_of_not_mem, List.find?]

/-- Concrete evaluation: a semantic hit whose content equals two cached
documents is attributed to the first of them. -/
lemma eval_dup_map :
    mapSemanticToIndices
      [⟨("dup").toList, 5, []⟩, ⟨("dup").toList, 9, []⟩]
      [(("dup").toList, 1)] = [(0, 1 / 2)] := by
  norm_num [mapSemanticToIndices, dictInsert, List.findIdx?]

/-- Concrete evaluation: the merged output of the duplicate-content
corpus credits only the first chunk (page 5). -/
lemma eval_dup_search :
    (hybridSearch [⟨("dup").toList, 5, []⟩, ⟨("dup").toList, 9, []⟩] []
        [(("dup").toList, 1)] 2).map (fun r => (r.page, r.score)) =
      [(5, 7 / 20)] := by
  norm_num [hybridSearch, formatHybrid, mapSemanticToIndices, dictInsert,
    List.findIdx?, hybridTop, hybridRanked, hybridAll, pySetIterOrder,
    unionIds, fusedScore, lookupScore, stSort, stInsert, scoreKeep,
    List.dedup_nil, List.dedup_cons_of_mem, List.dedup_cons_of_not_mem,
    List.find?, List.getD]

/-- Concrete evaluation: the hit with content "b" lands on index 1 of
the corpus with contents "a", "b". -/
lemma eval_ab_map :
    mapSemanticToIndices [⟨("a").toList, 1, []⟩, ⟨("b").toList, 2, []⟩]
      [(("b").toList, 1)] = [(1, 1 / 2)] := by
  have hab : ('a' : Char) ≠ 'b' := by decide
  norm_num [mapSemanticToIndices, dictInsert, List.findIdx?, hab]

/-- Concrete evaluation: after changing only the first chunk's content
to "b" (ids and positions unchanged) the same hit lands on index 0. -/
lemma eval_bb_map :
    mapSemanticToIndices [⟨("b").toList, 1, []⟩, ⟨("b").toList, 2, []⟩]
      [(("b").toList, 1)] = [(0, 1 / 2)] := by
  norm_num [mapSemanticToIndices, dictInsert, List.findIdx?]

/-- Claim C1: in hybrid mode the fused score of each candidate equals
w_lex × lexical + w_sem × semantic over the union of chunk ids present in
either channel's result set, with a missing channel's score defaulting
to 0 and the fixed weights 0.3 and 0.7; in the two-candidate scenario
(A lexical 1.0 / semantic 0.0, B lexical 0.0 / semantic 1.0), fused(A) =
0.3, fused(B) = 0.7, and B ranks above A. -/
theorem claim1_fusion_formula :
    (∀ (k : Nat) (lex sem : List (Nat × ℚ)) (p : Nat × ℚ),
        p ∈ hybridTop k lex sem →
        p.2 = 3 / 10 * lookupScore lex p.1 + 7 / 10 * lookupScore sem p.1) ∧
    (∀ (lex sem : List (Nat × ℚ)) (i : Nat),
        i ∈ (hybridAll lex sem).map Prod.fst ↔
          i ∈ lex.map Prod.fst ∨ i ∈ sem.map Prod.fst) ∧
    hybridTop 2 [(0, 1)] [(1, 1)] = [(1, 7 / 10), (0, 3 / 10)] := by
  refine ⟨?_, ?_, eval_scenarioB⟩
  · intro k lex sem p hp
    have h1 : p ∈ hybridRanked lex sem := List.take_subset k _ hp
    have h2 : p ∈ hybridAll lex sem :=
      ((stSort_perm scoreKeep _).mem_iff).mp h1
    rcases List.mem_map.mp h2 with ⟨i, _, rfl⟩
    rfl
  · intro lex sem i
    show i ∈ (List.map (fun i => (i, fusedScore lex sem i))
        (pySetIterOrder (unionIds lex sem))).map Prod.fst ↔ _
    rw [List.map_map]
    have hid : (Prod.fst ∘ fun i => (i, fusedScore lex sem i)) =
        (fun i : Nat => i) := rfl
    rw [hid, List.map_id']
    unfold pySetIterOrder
    rw [(stSort_perm _ _).mem_iff, List.mem_dedup, unionIds, List.mem_dedup,
      List.mem_append]

/-- Witness for C1 at a concrete input: candidate 0 of the scenario
carries exactly the fused score 3/10 computed by the formula. -/
theorem claim1_fusion_formula_witness :
    ((0 : Nat), (3 : ℚ) / 10) ∈ hybridTop 2 [(0, 1)] [(1, 1)] ∧
    ((0 : Nat), (3 : ℚ) / 10).2 =
      3 / 10 * lookupScore [(0, 1)] 0 + 7 / 10 * lookupScore [(1, 1)] 0 :=
  ⟨by rw [eval_scenarioB]; simp,
    claim1_fusion_formula.1 2 [(0, 1)] [(1, 1)] (0, 3 / 10)
      (by rw [eval_scenarioB]; simp)⟩

/-- Claim C2: whenever `ask` runs with a non-empty retrieved context
list, the returned (stripped) answer contains one of the recognized
page-citation patterns, and whenever the generated answer has no such
pattern, the citation of the top source's page is prepended. -/
theorem claim2_citation_guarantee :
    ∀ (provider : PyStr) (ollamaB openaiB : PyStr → Except GenErr PyStr)
      (q : PyStr) (ctxs : List RetrievedDoc),
      ctxs ≠ [] →
      hasCitation (askCore provider ollamaB openaiB q ctxs).answer = true ∧
      (∀ (ans : PyStr) (top : RetrievedDoc) (rest : List RetrievedDoc),
        hasCitation ans = false →
        validateCitations ans (top :: rest) =
          ("Conforme página ").toList ++ natDigits top.page ++
            (": ").toList ++ ans) := by
  intro provider ob oa q ctxs hne
  constructor
  · rcases ctxs with _ | ⟨top, rest⟩
    · exact absurd rfl hne
    · exact validate_strip_hasCitation _ top rest
  · intro ans top rest h
    unfold validateCitations
    simp [h]

/-- Witness for C2: an engine whose remote backend always fails still
returns an answer with a recognizable citation. -/
theorem claim2_citation_guarantee_witness :
    (([⟨("c").toList, 2, [], 1⟩] : List RetrievedDoc) ≠ []) ∧
    hasCitation (askCore (("ollama").toList)
      (fun _ => Except.error GenErr.connectionFailure)
      (fun _ => Except.error GenErr.authFailure)
      (("q").toList) [⟨("c").toList, 2, [], 1⟩]).answer = true :=
  ⟨by decide,
    (claim2_citation_guarantee (("ollama").toList)
      (fun _ => Except.error GenErr.connectionFailure)
      (fun _ => Except.error GenErr.authFailure)
      (("q").toList) [⟨("c").toList, 2, [], 1⟩] (by decide)).1⟩

/-- Claim C3: with at least one retrieved chunk, `ask` never propagates
a generation failure: every outcome is `Except.ok`, and when the
configured primary backend fails (connection, auth, timeout, or an
unsupported provider), the answer is the one produced by the mock
fallback on the same prompt and contexts. -/
theorem claim3_ask_never_raises :
    ∀ (provider : PyStr) (ollamaB openaiB : PyStr → Except GenErr PyStr)
      (q : PyStr) (ctxs : List RetrievedDoc),
      ctxs ≠ [] →
      askExc provider ollamaB openaiB q ctxs =
        Except.ok (askCore provider ollamaB openaiB q ctxs) ∧
      (∀ e, generateAnswer provider ollamaB openaiB
          (buildPrompt q ctxs) ctxs = Except.error e →
        (askCore provider ollamaB openaiB q ctxs).answer =
          pyStrip (validateCitations
            (callMock (buildPrompt q ctxs) ctxs) ctxs)) := by
  intro provider ob oa q ctxs hne
  rcases ctxs with _ | ⟨top, rest⟩
  · exact absurd rfl hne
  constructor
  · rfl
  · intro e he
    simp only [askCore, he]

/-- Witness for C3: a failing Ollama backend still yields an ok result. -/
theorem claim3_ask_never_raises_witness :
    (([⟨("c").toList, 1, [], 1⟩] : List RetrievedDoc) ≠ []) ∧
    askExc (("ollama").toList)
        (fun _ => Except.error GenErr.connectionFailure)
        (fun _ => Except.error GenErr.timeout)
        (("q").toList) [⟨("c").toList, 1, [], 1⟩] =
      Except.ok (askCore (("ollama").toList)
        (fun _ => Except.error GenErr.connectionFailure)
        (fun _ => Except.error GenErr.timeout)
        (("q").toList) [⟨("c").toList, 1, [], 1⟩]) :=
  ⟨by decide,
    (claim3_ask_never_raises (("ollama").toList)
      (fun _ => Except.error GenErr.connectionFailure)
      (fun _ => Except.error GenErr.timeout)
      (("q").toList) [⟨("c").toList, 1, [], 1⟩] (by decide)).1⟩

/-- Counterexample to claim C4 as stated: the semantic channel is
correlated to corpus indices by content-string equality (retriever.py
line 226), not by an id carried through the channel.  With two chunks of
identical content the hit is always attributed to the first one, so the
page-9 duplicate can never receive semantic credit and the merged output
cites page 5; and with the same positions/ids, changing only a content
string moves the attribution from index 1 to index 0. -/
theorem claim4_content_equality_counterexample :
    mapSemanticToIndices
        [⟨("dup").toList, 5, []⟩, ⟨("dup").toList, 9, []⟩]
        [(("dup").toList, 1)] = [(0, 1 / 2)] ∧
    (hybridSearch [⟨("dup").toList, 5, []⟩, ⟨("dup").toList, 9, []⟩] []
        [(("dup").toList, 1)] 2).map (fun r => (r.page, r.score)) =
      [(5, 7 / 20)] ∧
    mapSemanticToIndices [⟨("a").toList, 1, []⟩, ⟨("b").toList, 2, []⟩]
        [(("b").toList, 1)] = [(1, 1 / 2)] ∧
    mapSemanticToIndices [⟨("b").toList, 1, []⟩, ⟨("b").toList, 2, []⟩]
        [(("b").toList, 1)] = [(0, 1 / 2)] :=
  ⟨eval_dup_map, eval_dup_search, eval_ab_map, eval_bb_map⟩

/-- Claim C4 amended: the lexical channel reports integer indices
directly, but every semantic entry entering the merge is obtained by a
first-match content-string scan of the corpus cache (first index whose
cached content equals the hit's content, with its distance converted by
1/(1+d)). -/
theorem claim4_semantic_correlation_by_content :
    ∀ (docs : List CachedDoc) (hits : List (PyStr × ℚ)) (p : Nat × ℚ),
      p ∈ mapSemanticToIndices docs hits →
      ∃ h ∈ hits, docs.findIdx? (fun d => d.content = h.1) = some p.1 ∧
        p.2 = 1 / (1 + h.2) :=
  fun docs hits p hp => mapSemanticToIndices_mem docs hits p hp

/-- Witness for amended C4 at the duplicate-content corpus. -/
theorem claim4_semantic_correlation_witness :
    ((0 : Nat), (1 : ℚ) / 2) ∈ mapSemanticToIndices
        [⟨("dup").toList, 5, []⟩, ⟨("dup").toList, 9, []⟩]
        [(("dup").toList, 1)] ∧
    ∃ h ∈ [(("dup").toList, (1 : ℚ))],
      List.findIdx? (fun d => d.content = h.1)
          [(⟨("dup").toList, 5, []⟩ : CachedDoc), ⟨("dup").toList, 9, []⟩] =
        some ((0 : Nat), (1 : ℚ) / 2).1 ∧
      ((0 : Nat), (1 : ℚ) / 2).2 = 1 / (1 + h.2) :=
  ⟨by rw [eval_dup_map]; simp,
    claim4_semantic_correlation_by_content
      [⟨("dup").toList, 5, []⟩, ⟨("dup").toList, 9, []⟩]
      [(("dup").toList, 1)] ((0 : Nat), (1 : ℚ) / 2)
      (by rw [eval_dup_map]; simp)⟩

/-- Concrete evaluation: with the shared `top_k` overwritten to 2 the
engine returns two sources for the example engine. -/
lemma eval_engineAsk_k2 :
    (engineAsk (askQuestionSetK exEngine 2) (("q").toList)).sources.length = 2 := by
  norm_num [engineAsk, askQuestionSetK, engineSearch, exEngine, hybridSearch,
    formatHybrid, mapSemanticToIndices, askCore, hybridTop, hybridRanked,
    hybridAll, pySetIterOrder, unionIds, fusedScore, lookupScore, stSort,
    stInsert, scoreKeep, List.dedup_nil, List.dedup_cons_of_mem,
    List.dedup_cons_of_not_mem, List.find?, List.getD]

/-- Concrete evaluation: with its own `top_k` of 1 the same engine
returns one source for the same question. -/
lemma eval_engineAsk_k1 :
    (engineAsk exEngine (("q").toList)).sources.length = 1 := by
  norm_num [engineAsk, engineSearch, exEngine, hybridSearch,
    formatHybrid, mapSemanticToIndices, askCore, hybridTop, hybridRanked,
    hybridAll, pySetIterOrder, unionIds, fusedScore, lookupScore, stSort,
    stInsert, scoreKeep, List.dedup_nil, List.dedup_cons_of_mem,
    List.dedup_cons_of_not_mem, List.find?, List.getD]

/-- Counterexample to claim C5 as stated: `DocumentRetriever.ask` takes
no per-call k (its model reads the shared `top_k` field), and the `/ask`
handler communicates the request's k by writing it into the shared
engine state (api.py line 231): the engine passed to `ask` carries the
request's k in its shared field, and the answer observably depends on
that shared write. -/
theorem claim5_shared_topk_counterexample :
    (askQuestionSetK exEngine 2).top_k = 2 ∧
    exEngine.top_k = 1 ∧
    (engineAsk (askQuestionSetK exEngine 2) (("q").toList)).sources.length = 2 ∧
    (engineAsk exEngine (("q").toList)).sources.length = 1 ∧
    (askQuestionHandler exEngine (("q").toList) 2).2 =
      engineAsk (askQuestionSetK exEngine 2) (("q").toList) :=
  ⟨rfl, rfl, eval_engineAsk_k2, eval_engineAsk_k1, rfl⟩

/-- Claim C5 amended: the handler applies a per-request k by overwriting
the engine's shared `top_k` field before calling `ask` (which reads k
only from that shared field) and restores the saved value afterwards, so
the final state equals the initial one. -/
theorem claim5_handler_overwrites_and_restores :
    ∀ (e : Engine) (q : PyStr) (reqK : Nat),
      (askQuestionHandler e q reqK).1 = e ∧
      (askQuestionHandler e q reqK).2 = engineAsk { e with top_k := reqK } q := by
  intro e q reqK
  constructor
  · show ({ { e with top_k := reqK } with top_k := e.top_k } : Engine) = e
    cases e
    rfl
  · rfl

/-- Counterexample to claim C6 as stated: the semantic-only `search`
path stores the raw FAISS distance as the score (retriever.py line 193),
so the nearer document (distance 1) gets the lower score, and the score
2 differs from the converted value 1/(1+2). -/
theorem claim6_raw_distance_counterexample :
    (semanticSearchOnly [(⟨("a").toList, 1, []⟩, 1), (⟨("b").toList, 2, []⟩, 2)]).map
        (fun r => r.score) = [1, 2] ∧
    (2 : ℚ) ≠ semanticConvert 2 ∧
    (1 : ℚ) < 2 := by
  refine ⟨by simp [semanticSearchOnly], ?_, by norm_num⟩
  unfold semanticConvert
  norm_num

/-- Claim C6 amended: inside the hybrid path every semantic entry is the
converted similarity 1/(1+distance) of some hit, the conversion is
monotone (smaller distance, larger score) and lands in (0, 1] for
nonnegative distances; the semantic-only search path passes the raw
distance through unchanged. -/
theorem claim6_semantic_score_conversion :
    (∀ pairs : List (CachedDoc × ℚ),
      (semanticSearchOnly pairs).map (fun r => r.score) = pairs.map Prod.snd) ∧
    (∀ (docs : List CachedDoc) (hits : List (PyStr × ℚ)) (p : Nat × ℚ),
      p ∈ mapSemanticToIndices docs hits →
      ∃ h ∈ hits, p.2 = semanticConvert h.2) ∧
    (∀ d1 d2 : ℚ, 0 ≤ d1 → d1 ≤ d2 →
      semanticConvert d2 ≤ semanticConvert d1) ∧
    (∀ d : ℚ, 0 ≤ d → 0 < semanticConvert d ∧ semanticConvert d ≤ 1) := by
  refine ⟨?_, ?_, ?_, ?_⟩
  · intro pairs
    simp [semanticSearchOnly]
  · intro docs hits p hp
    rcases mapSemanticToIndices_mem docs hits p hp with ⟨h, hh, _, hv⟩
    exact ⟨h, hh, by simpa [semanticConvert] using hv⟩
  · intro d1 d2 h0 h12
    unfold semanticConvert
    have h1 : (0 : ℚ) < 1 + d1 := by linarith
    exact one_div_le_one_div_of_le h1 (by linarith)
  · intro d h0
    unfold semanticConvert
    constructor
    · exact one_div_pos.mpr (by linarith)
    · rw [div_le_one (by linarith)]
      linarith

/-- Witness for amended C6 at a concrete hit with distance 1. -/
theorem claim6_semantic_score_witness :
    ((0 : Nat), (1 : ℚ) / 2) ∈ mapSemanticToIndices
        [⟨("b").toList, 1, []⟩, ⟨("b").toList, 2, []⟩] [(("b").toList, 1)] ∧
    (∃ h ∈ [(("b").toList, (1 : ℚ))],
      ((0 : Nat), (1 : ℚ) / 2).2 = semanticConvert h.2) ∧
    semanticConvert 2 ≤ semanticConvert 1 :=
  ⟨by rw [eval_bb_map]; simp,
    claim6_semantic_score_conversion.2.1
      [⟨("b").toList, 1, []⟩, ⟨("b").toList, 2, []⟩] [(("b").toList, 1)]
      ((0 : Nat), (1 : ℚ) / 2) (by rw [eval_bb_map]; simp),
    claim6_semantic_score_conversion.2.2.1 1 2 (by norm_num) (by norm_num)⟩

/-- Concrete evaluation: ids 8 and 1 with equal lexical score 1 and a
weak semantic-only candidate 5; the union set of 8 and 1 iterates 8
first (slot 0 before slot 1), and the stable sort keeps that order on
the tie. -/
lemma eval_tie :
    hybridTop 2 [(8, 1), (1, 1)] [(5, 1 / 11)] =
      [(8, 3 / 10), (1, 3 / 10)] := by
  norm_num [hybridTop, hybridRanked, hybridAll, pySetIterOrder, unionIds,
    fusedScore, lookupScore, stSort, stInsert, scoreKeep, List.dedup_nil,
    List.dedup_cons_of_mem, List.dedup_cons_of_not_mem, List.find?]

/-- Counterexample to claim C7 as stated: candidates 8 and 1 tie on the
fused score 3/10, yet the produced order is 8 before 1 — CPython set
iteration places key 8 (hash slot 0) before key 1 (slot 1) — so equal
scores are not broken by ascending chunk id / first corpus appearance. -/
theorem claim7_tiebreak_counterexample :
    hybridTop 2 [(8, 1), (1, 1)] [(5, 1 / 11)] =
      [(8, 3 / 10), (1, 3 / 10)] ∧
    fusedScore [(8, 1), (1, 1)] [(5, 1 / 11)] 8 =
      fusedScore [(8, 1), (1, 1)] [(5, 1 / 11)] 1 ∧
    (hybridTop 2 [(8, 1), (1, 1)] [(5, 1 / 11)]).map Prod.fst ≠ [1, 8] := by
  refine ⟨eval_tie, ?_, ?_⟩
  · norm_num [fusedScore, lookupScore, List.find?]
  · rw [eval_tie]
    decide

/-- Claim C7 amended: the ranking is a pure function of the channel
outputs (so identical inputs give identical output), the produced list
is sorted by fused score descending and is a permutation of the fused
candidates, and candidates with equal fused score keep the union's
set-iteration order (which is ascending hash slot, not ascending id). -/
theorem claim7_rank_sorted_stable :
    ∀ (lex sem : List (Nat × ℚ)),
      (hybridRanked lex sem).Pairwise (fun a b => b.2 ≤ a.2) ∧
      (hybridRanked lex sem).Perm (hybridAll lex sem) ∧
      (∀ q : ℚ, (hybridRanked lex sem).filter (fun p => decide (p.2 = q)) =
        (hybridAll lex sem).filter (fun p => decide (p.2 = q))) := by
  intro lex sem
  refine ⟨?_, stSort_perm _ _, fun q => filter_stSort_score q _⟩
  apply pairwise_stSort
  · intro a b h
    have : b.2 < a.2 := by simpa [scoreKeep] using h
    exact le_of_lt this
  · intro a b h
    have : ¬ b.2 < a.2 := by simpa [scoreKeep] using h
    exact le_of_not_lt this
  · intro a b c hab hbc
    exact le_trans hbc hab

/-- Claim C8: with zero retrieved chunks `ask` returns the canned "not
found" answer with empty sources, for every provider and backend — in
particular the result does not depend on the backends, which are never
invoked — and both search paths yield zero results on an empty corpus. -/
theorem claim8_empty_short_circuit :
    (∀ (provider : PyStr) (ollamaB openaiB : PyStr → Except GenErr PyStr)
        (q : PyStr),
      askExc provider ollamaB openaiB q [] =
        Except.ok { answer := notFoundAnswer, sources := [], question := q }) ∧
    (∀ (provider : PyStr) (ob1 oa1 ob2 oa2 : PyStr → Except GenErr PyStr)
        (q : PyStr),
      askExc provider ob1 oa1 q [] = askExc provider ob2 oa2 q []) ∧
    (∀ k : Nat, hybridSearch [] [] [] k = []) ∧
    semanticSearchOnly [] = [] := by
  refine ⟨fun _ _ _ _ => rfl, fun _ _ _ _ _ _ => rfl, fun k => ?_, rfl⟩
  simp [hybridSearch, hybridTop, hybridRanked, hybridAll, pySetIterOrder,
    unionIds, mapSemanticToIndices, formatHybrid, stSort, List.dedup_nil]

/-- Claim C9 (code bug): the later duplicate definition of `_call_mock`
(retriever.py line 477) shadows the sentence-extracting one (line 305),
so the effective fallback pastes the first 300 characters of each top-2
chunk; on a chunk whose content continues past its first sentence the
effective answer contains the second sentence, while the shadowed
(intended, spec-described) implementation keeps only the first
sentence — the two differ. -/
theorem claim9_fallback_uses_prefix_not_sentence :
    (("Second part").toList <:+:
      callMock [] [⟨("First sentence is long enough here. Second part.").toList,
        1, [], 1⟩]) ∧
    ¬ (("Second part").toList <:+:
      callMockShadowed [] [⟨("First sentence is long enough here. Second part.").toList,
        1, [], 1⟩]) ∧
    callMock [] [⟨("First sentence is long enough here. Second part.").toList,
        1, [], 1⟩] ≠
      callMockShadowed [] [⟨("First sentence is long enough here. Second part.").toList,
        1, [], 1⟩] := by
  set_option maxRecDepth 16384 in
  exact ⟨by decide, by decide, by decide⟩

set_option maxRecDepth 16384 in
/-- Counterexample to claim C10 as stated: a chunk of 201 characters
yields a source snippet of 203 characters (200 content characters plus
the three-character ellipsis), exceeding 200. -/
theorem claim10_snippet_length_counterexample :
    ((askCore (("mock").toList) (fun _ => Except.error GenErr.connectionFailure)
        (fun _ => Except.error GenErr.connectionFailure) (("q").toList)
        [⟨List.replicate 201 'a', 1, [], 1⟩]).sources.map
      (fun s => s.snippet.length)) = [203] ∧ ¬ (203 ≤ 200) := by
  constructor
  · show ([mkSource ⟨List.replicate 201 'a', 1, [], 1⟩].map
      (fun s => s.snippet.length)) = [203]
    rw [List.map_cons, List.map_nil]
    have hlen : (mkSource (⟨List.replicate 201 'a', 1, [], 1⟩ :
        RetrievedDoc)).snippet.length = 203 := by
      show (mkSnippet (List.replicate 201 'a')).length = 203
      unfold mkSnippet
      rw [if_pos (by rw [List.length_replicate]; omega)]
      have h3 : (("...").toList).length = 3 := rfl
      rw [List.length_append, List.length_take, List.length_replicate, h3]
      omega
    rw [hlen]
  · decide

/-- Claim C10 amended: every source entry of an `ask` result carries the
snippet of its context — the full content when it has at most 200
characters, else the first 200 characters followed by an ellipsis, for a
total of exactly 203 characters. -/
theorem claim10_snippet_shape :
    ∀ (provider : PyStr) (ollamaB openaiB : PyStr → Except GenErr PyStr)
      (q : PyStr) (ctxs : List RetrievedDoc) (s : SourceEntry),
      s ∈ (askCore provider ollamaB openaiB q ctxs).sources →
      ∃ ctx ∈ ctxs, s.snippet = mkSnippet ctx.content ∧
        (ctx.content.length ≤ 200 → s.snippet = ctx.content) ∧
        (200 < ctx.content.length →
          s.snippet = ctx.content.take 200 ++ ("...").toList ∧
          s.snippet.length = 203) := by
  intro provider ob oa q ctxs s hs
  rcases ctxs with _ | ⟨top, rest⟩
  · simp [askCore] at hs
  · have hs' : s ∈ (top :: rest).map mkSource := hs
    rcases List.mem_map.mp hs' with ⟨ctx, hctx, rfl⟩
    refine ⟨ctx, hctx, rfl, ?_, ?_⟩
    · intro hle
      show mkSnippet ctx.content = ctx.content
      unfold mkSnippet
      rw [if_neg (by omega)]
    · intro hgt
      constructor
      · show mkSnippet ctx.content = _
        unfold mkSnippet
        rw [if_pos hgt]
      · show (mkSnippet ctx.content).length = 203
        unfold mkSnippet
        rw [if_pos hgt]
        simp [List.length_append, List.length_take]
        omega

/-- Witness for amended C10 at the 201-character chunk. -/
theorem claim10_snippet_shape_witness :
    ∃ ctx ∈ ([⟨List.replicate 201 'a', 1, [], 1⟩] : List RetrievedDoc),
      (mkSource ⟨List.replicate 201 'a', 1, [], 1⟩).snippet =
        mkSnippet ctx.content ∧
      (ctx.content.length ≤ 200 →
        (mkSource ⟨List.replicate 201 'a', 1, [], 1⟩).snippet = ctx.content) ∧
      (200 < ctx.content.length →
        (mkSource ⟨List.replicate 201 'a', 1, [], 1⟩).snippet =
          ctx.content.take 200 ++ ("...").toList ∧
        (mkSource ⟨List.replicate 201 'a', 1, [], 1⟩).snippet.length = 203) :=
  claim10_snippet_shape (("mock").toList)
    (fun _ => Except.error GenErr.connectionFailure)
    (fun _ => Except.error GenErr.connectionFailure) (("q").toList)
    [⟨List.replicate 201 'a', 1, [], 1⟩]
    (mkSource ⟨List.replicate 201 'a', 1, [], 1⟩)
    (List.Mem.head _)
